import Mathlib

/-!
Shallow embedding of `src/web_monitor.py` (Website Monitoring Dashboard):
the enrichment gateway (`get_ip`, `get_whois_org`, `check_safety`) with its
module-level caches, the visit aggregator (`log_visit` and the
`visited_sites` defaultdict), and the snapshot / top-sites computations of
`MonitorDashboard.update_data`.

Remote collaborators (DNS resolution, WHOIS, the Safe Browsing HTTP POST)
are modelled by explicit outcome values carried by each event; each gateway
function returns, besides its result and updated cache, a Boolean recording
whether the underlying remote call was attempted.
-/

namespace WebMonitor

/-- Timestamps (`time.time()` readings), modelled as exact integer clock
values; every instant the claims mention is a whole number of seconds. -/
abbrev Time := ℤ

/-- Constant `MIN_INTERVAL = 10`: seconds before re-logging the same site. -/
def MIN_INTERVAL : Time := 10

/-- One value of the `visited_sites` table: the per-domain dict
`{"visits": ..., "ip": ..., "org": ..., "safety": ..., "first_seen": ..., "last_seen": ...}`. -/
structure SiteData where
  visits : Nat
  ip : String
  org : String
  safety : String
  first_seen : Time
  last_seen : Time
deriving DecidableEq

/-- The defaultdict initializer of `visited_sites`. -/
def defaultSiteData : SiteData :=
  { visits := 0, ip := "N/A", org := "N/A", safety := "Not Checked",
    first_seen := 0, last_seen := 0 }

/-- Dictionary lookup on an insertion-ordered association list. -/
def lookup {α : Type} (l : List (String × α)) (d : String) : Option α :=
  match l with
  | [] => none
  | (k, v) :: t => if k = d then some v else lookup t d

/-- Outcome of `socket.gethostbyname(domain)`: a resolved address, the
`socket.gaierror` resolution failure (the one exception `get_ip` catches), or
an exception outside `gaierror` — e.g. the `UnicodeError` raised for a label
longer than 63 characters — which `get_ip` does not catch. -/
inductive ResolveOutcome where
  | addr (a : String)
  | gaierror
  | unicodeError
deriving DecidableEq

/-- Function `get_ip` from the source: answer from `ip_cache` when present;
otherwise resolve, turning only `socket.gaierror` into the sentinel
`"Unknown IP"`, and cache the result.  `.ok (result, cache, attempted?)`
mirrors a normal return with the Boolean recording whether
`socket.gethostbyname` was invoked; `.error ()` is an uncaught exception
propagating out of `get_ip` (the resolution was attempted, nothing was
cached). -/
def get_ip (resolve : ResolveOutcome) (cache : List (String × String))
    (domain : String) : Except Unit (String × List (String × String) × Bool) :=
  match lookup cache domain with
  | some ip => .ok (ip, cache, false)
  | none =>
    match resolve with
    | .addr a => .ok (a, cache ++ [(domain, a)], true)
    | .gaierror => .ok ("Unknown IP", cache ++ [(domain, "Unknown IP")], true)
    | .unicodeError => .error ()

/-- Outcome of `whois.whois(domain)` as observed by `get_whois_org`:
`.error ()` when the lookup raises, `.ok o` when it returns with `o` the
scalar content of the `org` field (`none` when the field is `None`; the
list case of the source collapses to its first element). -/
abbrev WhoisOutcome := Except Unit (Option String)

/-- Function `get_whois_org` from the source: answer from `whois_cache` when present,
otherwise perform the WHOIS lookup, mapping a falsy organization to
`"Unknown Org"` and any raised exception to `"WHOIS Error"`, and cache. -/
def get_whois_org (w : WhoisOutcome) (cache : List (String × String))
    (domain : String) : String × List (String × String) × Bool :=
  match lookup cache domain with
  | some org => (org, cache, false)
  | none =>
    let org := match w with
      | .error _ => "WHOIS Error"
      | .ok none => "Unknown Org"
      | .ok (some o) => if o = "" then "Unknown Org" else o
    (org, cache ++ [(domain, org)], true)

/-- Outcome of `requests.post(url, json=payload, timeout=5)`: `.error ()` when
it raises a `requests.exceptions.RequestException` (transport error or
timeout), `.ok (status, matches)` when a response arrives with the given
status code and with `matches` recording whether the JSON body has a
truthy `"matches"` field. -/
abbrev HttpOutcome := Except Unit (Nat × Bool)

/-- Function `check_safety` from the source: answer from `safety_cache` when present;
return `"API Key Missing"` (uncached) when the configured key equals the
placeholder string `"YOUR_GOOGLE_API_KEY"`; otherwise POST the threat-match
query and classify the outcome, caching the verdict.  `key` is the value of
`os.getenv("GOOGLE_API_KEY")` (so `none` when the variable is unset). -/
def check_safety (key : Option String) (resp : HttpOutcome)
    (cache : List (String × String)) (domain : String) :
    String × List (String × String) × Bool :=
  match lookup cache domain with
  | some s => (s, cache, false)
  | none =>
    if key = some "YOUR_GOOGLE_API_KEY" then ("API Key Missing", cache, false)
    else
      let safety := match resp with
        | .ok (status, hasMatch) =>
            if status = 200 ∧ hasMatch = false then "‚úÖ Safe" else "‚ö†Ô∏è Malicious"
        | .error _ => "‚ùå API Error"
      (safety, cache ++ [(domain, safety)], true)

/-- One DNS query event: the registrable domain, the capture time, and the
outcomes the three remote collaborators would produce if consulted now. -/
structure Event where
  domain : String
  now : Time
  resolve : ResolveOutcome
  whoisOrg : WhoisOutcome
  http : HttpOutcome

/-- The whole module-level mutable state: `visited_sites` plus the three
lookup caches. -/
structure MonitorState where
  visited_sites : List (String × SiteData)
  ip_cache : List (String × String)
  whois_cache : List (String × String)
  safety_cache : List (String × String)
deriving DecidableEq

/-- Probing `visited_sites[domain]` on a defaultdict: the entry (the default when
absent) together with the possibly-extended table — probing creates the
default entry. -/
def getOrCreate (sites : List (String × SiteData)) (d : String) :
    SiteData × List (String × SiteData) :=
  match lookup sites d with
  | some v => (v, sites)
  | none => (defaultSiteData, sites ++ [(d, defaultSiteData)])

/-- In-place update of the dict entry for `d`. -/
def setSite (sites : List (String × SiteData)) (d : String) (v : SiteData) :
    List (String × SiteData) :=
  sites.map fun p => if p.1 = d then (d, v) else p

/-- The three enrichment lookup kinds. -/
inductive Lookup where
  | ip
  | org
  | safety
deriving DecidableEq

/-- Result of one `log_visit` call: the resulting shared state (mutations
made before an uncaught exception persist), whether the event was accepted
(not debounced), the remote calls performed, and whether an uncaught
exception propagated out of `log_visit`. -/
structure LogResult where
  state : MonitorState
  accepted : Bool
  calls : List (String × Lookup)
  raised : Bool

/-- Function `log_visit` from the source: probe `visited_sites[domain]`;
discard when `now - data["last_seen"] < MIN_INTERVAL`; otherwise increment
the visit count and stamp `last_seen`, and on the transition to
`visits == 1` stamp `first_seen` and run the three enrichment lookups in
source order.  When `get_ip` raises (an exception it does not catch), the
exception propagates out of `log_visit`: the count, `last_seen` and
`first_seen` writes have already happened and persist, the `ip`, `org` and
`safety` fields are never assigned, and the organization and reputation
lookups are not invoked. -/
def log_visit (key : Option String) (ev : Event) (s : MonitorState) : LogResult :=
  let dc := getOrCreate s.visited_sites ev.domain
  let data := dc.1
  let sites := dc.2
  if ev.now - data.last_seen < MIN_INTERVAL then
    { state := { s with visited_sites := sites }, accepted := false,
      calls := [], raised := false }
  else
    let data1 := { data with visits := data.visits + 1, last_seen := ev.now }
    if data1.visits = 1 then
      let dataf := { data1 with first_seen := ev.now }
      match get_ip ev.resolve s.ip_cache ev.domain with
      | .error _ =>
        { state := { s with visited_sites := setSite sites ev.domain dataf },
          accepted := true, calls := [(ev.domain, Lookup.ip)], raised := true }
      | .ok ri =>
        let ro := get_whois_org ev.whoisOrg s.whois_cache ev.domain
        let rs := check_safety key ev.http s.safety_cache ev.domain
        let data2 := { dataf with ip := ri.1, org := ro.1, safety := rs.1 }
        { state := { visited_sites := setSite sites ev.domain data2,
                     ip_cache := ri.2.1, whois_cache := ro.2.1,
                     safety_cache := rs.2.1 },
          accepted := true,
          calls := (if ri.2.2 then [(ev.domain, Lookup.ip)] else [])
                ++ (if ro.2.2 then [(ev.domain, Lookup.org)] else [])
                ++ (if rs.2.2 then [(ev.domain, Lookup.safety)] else []),
          raised := false }
    else
      { state := { s with visited_sites := setSite sites ev.domain data1 },
        accepted := true, calls := [], raised := false }

/-- The state after a sequence of `log_visit` calls. -/
def run (key : Option String) (s : MonitorState) : List Event → MonitorState
  | [] => s
  | ev :: evs => run key (log_visit key ev s).state evs

/-- The per-event `(domain, accepted?)` trace of a sequence of `log_visit`
calls. -/
def runAccepted (key : Option String) (s : MonitorState) :
    List Event → List (String × Bool)
  | [] => []
  | ev :: evs =>
      (ev.domain, (log_visit key ev s).accepted) ::
        runAccepted key (log_visit key ev s).state evs

/-- The remote calls performed over a sequence of `log_visit` calls. -/
def runCalls (key : Option String) (s : MonitorState) :
    List Event → List (String × Lookup)
  | [] => []
  | ev :: evs =>
      (log_visit key ev s).calls ++ runCalls key (log_visit key ev s).state evs

/-- Module load time: empty `visited_sites` and empty caches. -/
def initialState : MonitorState :=
  { visited_sites := [], ip_cache := [], whois_cache := [], safety_cache := [] }

/-- The cache serving a given lookup kind. -/
def cacheOf (s : MonitorState) : Lookup → List (String × String)
  | .ip => s.ip_cache
  | .org => s.whois_cache
  | .safety => s.safety_cache

/-- From `MonitorDashboard.update_data`:
`sorted(visited_sites.items(), key=lambda item: item[1]["last_seen"], reverse=True)`.
Python `sorted` is stable, and `reverse=True` reverses each key comparison
while keeping equal-key elements in original order, which is exactly
`mergeSort` under the reversed (non-strict) key comparison. -/
def snapshot (s : MonitorState) : List (String × SiteData) :=
  s.visited_sites.mergeSort fun a b => decide (b.2.last_seen ≤ a.2.last_seen)

/-- From `MonitorDashboard.update_data`:
`sorted(filtered_sites, key=lambda item: item[1]["visits"], reverse=True)[:n]`,
generalized over the truncation length (the source instantiates `n = 10`). -/
def top_sites (l : List (String × SiteData)) (n : Nat) :
    List (String × SiteData) :=
  (l.mergeSort fun a b => decide (b.2.visits ≤ a.2.visits)).take n

/-- The record `log_visit` sees for domain `d` in state `s` (the defaultdict
value: the stored record, or the initializer when `d` is absent). -/
def currentData (s : MonitorState) (d : String) : SiteData :=
  (getOrCreate s.visited_sites d).1

/-- Number of occurrences of the remote call `(d, k)` in a call trace. -/
def callCount (tr : List (String × Lookup)) (d : String) (k : Lookup) : Nat :=
  tr.count (d, k)

/-! ## Association-list lemmas -/

theorem lookup_append_of_none {α : Type} {l : List (String × α)} {d : String}
    (h : lookup l d = none) (m : List (String × α)) :
    lookup (l ++ m) d = lookup m d := by
  induction l with
  | nil => rfl
  | cons p t ih =>
    obtain ⟨k, v⟩ := p
    by_cases hk : k = d
    · simp [lookup, hk] at h
    · simp only [lookup, hk, if_false] at h
      simpa [lookup, hk] using ih h

theorem lookup_append_of_some {α : Type} {l : List (String × α)} {d : String}
    {v : α} (h : lookup l d = some v) (m : List (String × α)) :
    lookup (l ++ m) d = some v := by
  induction l with
  | nil => simp [lookup] at h
  | cons p t ih =>
    obtain ⟨k, w⟩ := p
    by_cases hk : k = d
    · simp only [lookup, hk, if_pos rfl] at h ⊢
      simpa using h
    · simp only [lookup, hk, if_false] at h ⊢
      exact ih h

theorem lookup_isSome_append {α : Type} {l : List (String × α)} {d : String}
    (h : (lookup l d).isSome) (m : List (String × α)) :
    (lookup (l ++ m) d).isSome := by
  obtain ⟨v, hv⟩ := Option.isSome_iff_exists.mp h
  rw [lookup_append_of_some hv]
  rfl

theorem lookup_setSite_self {l : List (String × SiteData)} {d : String}
    {v : SiteData} :
    lookup (setSite l d v) d = (lookup l d).map fun _ => v := by
  induction l with
  | nil => rfl
  | cons p t ih =>
    obtain ⟨k, w⟩ := p
    show lookup ((if k = d then (d, v) else (k, w)) :: setSite t d v) d =
      Option.map (fun _ => v) (lookup ((k, w) :: t) d)
    by_cases hk : k = d
    · subst hk
      rw [if_pos rfl]
      simp [lookup]
    · rw [if_neg hk]
      simp only [lookup, hk, if_false]
      exact ih

theorem lookup_setSite_other {l : List (String × SiteData)} {d d' : String}
    {v : SiteData} (h : d' ≠ d) :
    lookup (setSite l d v) d' = lookup l d' := by
  induction l with
  | nil => rfl
  | cons p t ih =>
    obtain ⟨k, w⟩ := p
    show lookup ((if k = d then (d, v) else (k, w)) :: setSite t d v) d' =
      lookup ((k, w) :: t) d'
    by_cases hk : k = d
    · subst hk
      rw [if_pos rfl]
      simp only [lookup, Ne.symm h, if_false]
      exact ih
    · rw [if_neg hk]
      by_cases hk' : k = d'
      · subst hk'
        simp [lookup]
      · simp only [lookup, hk', if_false]
        exact ih

theorem mem_setSite {l : List (String × SiteData)} {d : String} {v : SiteData}
    {p : String × SiteData} (h : p ∈ setSite l d v) :
    p = (d, v) ∨ (p ∈ l ∧ p.1 ≠ d) := by
  obtain ⟨q, hq, hpq⟩ := List.mem_map.mp h
  by_cases hk : q.1 = d
  · left
    simpa [hk] using hpq.symm
  · right
    simp only [hk, if_false] at hpq
    exact hpq ▸ ⟨hq, hk⟩

theorem lookup_mem {α : Type} {l : List (String × α)} {d : String} {v : α}
    (h : lookup l d = some v) : (d, v) ∈ l := by
  induction l with
  | nil => simp [lookup] at h
  | cons p t ih =>
    obtain ⟨k, w⟩ := p
    simp only [lookup] at h
    split at h
    · rename_i heq
      subst heq
      injection h with h2
      subst h2
      exact List.mem_cons_self _ _
    · exact List.mem_cons_of_mem _ (ih h)

theorem getOrCreate_lookup (l : List (String × SiteData)) (d : String) :
    lookup (getOrCreate l d).2 d = some (getOrCreate l d).1 := by
  unfold getOrCreate
  cases h : lookup l d with
  | some v => simp [h]
  | none =>
    simp only [h]
    rw [lookup_append_of_none h]
    simp [lookup]

theorem getOrCreate_lookup_other (l : List (String × SiteData)) {d d' : String}
    (h : d' ≠ d) : lookup (getOrCreate l d).2 d' = lookup l d' := by
  unfold getOrCreate
  cases hl : lookup l d with
  | some v => rfl
  | none =>
    simp only [hl]
    cases hd' : lookup l d' with
    | some w => exact lookup_append_of_some hd' _
    | none =>
      rw [lookup_append_of_none hd']
      simp [lookup, Ne.symm h]

/-! ## Enrichment-gateway lemmas -/

theorem get_ip_hit {r : ResolveOutcome} {c : List (String × String)}
    {d : String} {ip : String} (h : lookup c d = some ip) :
    get_ip r c d = .ok (ip, c, false) := by
  simp [get_ip, h]

theorem get_ip_miss_addr {c : List (String × String)} {d a : String}
    (h : lookup c d = none) :
    get_ip (.addr a) c d = .ok (a, c ++ [(d, a)], true) := by
  simp [get_ip, h]

theorem get_ip_miss_gaierror {c : List (String × String)} {d : String}
    (h : lookup c d = none) :
    get_ip .gaierror c d =
      .ok ("Unknown IP", c ++ [(d, "Unknown IP")], true) := by
  simp [get_ip, h]

theorem get_ip_miss_raise {c : List (String × String)} {d : String}
    (h : lookup c d = none) :
    get_ip .unicodeError c d = .error () := by
  simp [get_ip, h]

theorem get_ip_ok_cached {r : ResolveOutcome} {c : List (String × String)}
    {d : String} {ri : String × List (String × String) × Bool}
    (h : get_ip r c d = .ok ri) (ha : ri.2.2 = true) :
    lookup ri.2.1 d = some ri.1 := by
  unfold get_ip at h
  cases hc : lookup c d with
  | some ip =>
    simp only [hc] at h
    injection h with h
    subst h
    exact absurd ha (by simp)
  | none =>
    simp only [hc] at h
    cases r with
    | addr a =>
      injection h with h
      subst h
      rw [lookup_append_of_none hc]
      simp [lookup]
    | gaierror =>
      injection h with h
      subst h
      rw [lookup_append_of_none hc]
      simp [lookup]
    | unicodeError => exact Except.noConfusion h

theorem get_whois_org_not_attempted {w : WhoisOutcome}
    {c : List (String × String)} {d : String}
    (h : (get_whois_org w c d).2.2 = false) : (get_whois_org w c d).2.1 = c := by
  unfold get_whois_org at h ⊢
  cases hc : lookup c d with
  | some org => simp [hc]
  | none => simp [hc] at h

theorem get_whois_org_attempted {w : WhoisOutcome} {c : List (String × String)}
    {d : String} (h : (get_whois_org w c d).2.2 = true) :
    lookup c d = none ∧
      lookup (get_whois_org w c d).2.1 d = some (get_whois_org w c d).1 := by
  unfold get_whois_org at h ⊢
  cases hc : lookup c d with
  | some org => simp [hc] at h
  | none =>
    refine ⟨rfl, ?_⟩
    simp only [hc]
    rw [lookup_append_of_none hc]
    simp [lookup]

theorem get_whois_org_cache_mono {w : WhoisOutcome} {c : List (String × String)}
    {d d' : String} (h : (lookup c d').isSome) :
    (lookup (get_whois_org w c d).2.1 d').isSome := by
  unfold get_whois_org
  cases hc : lookup c d with
  | some org => exact h
  | none => exact lookup_isSome_append h _

theorem check_safety_not_attempted {key : Option String} {resp : HttpOutcome}
    {c : List (String × String)} {d : String}
    (h : (check_safety key resp c d).2.2 = false) :
    (check_safety key resp c d).2.1 = c := by
  unfold check_safety at h ⊢
  cases hc : lookup c d with
  | some s => simp [hc]
  | none =>
    simp only [hc]
    by_cases hk : key = some "YOUR_GOOGLE_API_KEY"
    · simp [hk]
    · simp [hk, hc] at h

theorem check_safety_attempted {key : Option String} {resp : HttpOutcome}
    {c : List (String × String)} {d : String}
    (h : (check_safety key resp c d).2.2 = true) :
    lookup c d = none ∧
      lookup (check_safety key resp c d).2.1 d =
        some (check_safety key resp c d).1 := by
  unfold check_safety at h ⊢
  cases hc : lookup c d with
  | some s => simp [hc] at h
  | none =>
    by_cases hk : key = some "YOUR_GOOGLE_API_KEY"
    · simp [hc, hk] at h
    · refine ⟨rfl, ?_⟩
      simp only [hc, hk, if_false]
      rw [lookup_append_of_none hc]
      simp [lookup]

theorem check_safety_cache_mono {key : Option String} {resp : HttpOutcome}
    {c : List (String × String)} {d d' : String} (h : (lookup c d').isSome) :
    (lookup (check_safety key resp c d).2.1 d').isSome := by
  unfold check_safety
  cases hc : lookup c d with
  | some s => exact h
  | none =>
    by_cases hk : key = some "YOUR_GOOGLE_API_KEY"
    · simp only [hk, if_pos rfl]
      exact h
    · simp only [hk, if_false]
      exact lookup_isSome_append h _

/-! ## Claim theorems: enrichment gateway -/

/-- C4 counterexample: `get_ip` catches only `socket.gaierror`, so the
`UnicodeError` that `socket.gethostbyname` raises for a domain with a label
longer than 63 characters propagates out of `get_ip`: on such an uncached
domain the function raises instead of returning the sentinel, refuting
"never raises an exception: on any resolution error whatsoever it returns
the sentinel". -/
theorem get_ip_raises_on_unicode_error :
    get_ip .unicodeError []
      "aaaaaaaaaaaaaaaaaaaaaaaaaaaaaaaaaaaaaaaaaaaaaaaaaaaaaaaaaaaaaaaaaaaaaa.com"
      = .error () ∧
    ∀ ip c2 att, get_ip .unicodeError []
      "aaaaaaaaaaaaaaaaaaaaaaaaaaaaaaaaaaaaaaaaaaaaaaaaaaaaaaaaaaaaaaaaaaaaaa.com"
      ≠ .ok (ip, c2, att) := by
  exact ⟨rfl, fun ip c2 att h => Except.noConfusion h⟩

/-- C4 (amended): `get_ip` answers from `ip_cache` without resolving when
the domain is cached.  On an uncached domain it returns the resolved address
on success and converts the caught `socket.gaierror` to the sentinel
`"Unknown IP"`, caching either result so that a second call for the same
domain — whatever its resolver outcome — returns the cached value without
resolving; but an exception outside `gaierror` (such as the `UnicodeError`
raised for an over-long label) is not caught: `get_ip` raises and caches
nothing. -/
theorem get_ip_fails_open_only_for_gaierror (r : ResolveOutcome)
    (c : List (String × String)) (d : String) :
    (∀ ip, lookup c d = some ip → get_ip r c d = .ok (ip, c, false)) ∧
    (lookup c d = none →
      (get_ip .gaierror c d =
        .ok ("Unknown IP", c ++ [(d, "Unknown IP")], true)) ∧
      (∀ a, get_ip (.addr a) c d = .ok (a, c ++ [(d, a)], true)) ∧
      (get_ip .unicodeError c d = .error ()) ∧
      (∀ ri r2, get_ip r c d = .ok ri → ri.2.2 = true →
        get_ip r2 ri.2.1 d = .ok (ri.1, ri.2.1, false))) := by
  constructor
  · intro ip hip
    exact get_ip_hit hip
  · intro hc
    refine ⟨get_ip_miss_gaierror hc, fun a => get_ip_miss_addr hc,
      get_ip_miss_raise hc, ?_⟩
    intro ri r2 hok hatt
    exact get_ip_hit (get_ip_ok_cached hok hatt)

/-- C4 witness: a fresh cache and a `gaierror` resolution give the sentinel;
the second call answers from the cache without resolving even though its own
resolver outcome differs. -/
theorem get_ip_fails_open_only_for_gaierror_witness :
    get_ip .gaierror [] "example.com" =
      .ok ("Unknown IP", [("example.com", "Unknown IP")], true) ∧
    get_ip (.addr "93.184.216.34") [("example.com", "Unknown IP")]
        "example.com" =
      .ok ("Unknown IP", [("example.com", "Unknown IP")], false) := by
  have h := (get_ip_fails_open_only_for_gaierror .gaierror []
    "example.com").2 rfl
  exact ⟨h.1, h.2.2.2 ("Unknown IP", [("example.com", "Unknown IP")], true)
    (.addr "93.184.216.34") h.1 rfl⟩

/-- C2: the code contradicts the claim.  With no credential configured
(`os.getenv("GOOGLE_API_KEY")` returns `None`, i.e. `key = none`), the guard
`GOOGLE_SAFE_BROWSING_API_KEY == "YOUR_GOOGLE_API_KEY"` is false, so
`check_safety` on an uncached domain still attempts the HTTP POST
(`attempted = true`) and returns a verdict derived from the response instead
of `"API Key Missing"`. -/
theorem check_safety_unset_key_attempts_post :
    (check_safety none (.ok (400, false)) [] "example.com").2.2 = true ∧
    (check_safety none (.ok (400, false)) [] "example.com").1 =
      "‚ö†Ô∏è Malicious" ∧
    (check_safety none (.error ()) [] "example.com").1 = "‚ùå API Error" := by
  exact ⟨rfl, rfl, rfl⟩

/-- C3 counterexample: an HTTP non-success response (status 500, no matches)
makes `check_safety` return the Flagged verdict `"‚ö†Ô∏è Malicious"`, refuting
the claim that an HTTP non-success response does not yield Flagged. -/
theorem check_safety_non_success_yields_flagged :
    (check_safety (some "k") (.ok (500, false)) [] "example.com").1 =
      "‚ö†Ô∏è Malicious" := rfl

/-- C3 (amended): when `check_safety` attempts the network call (uncached
domain, key not the placeholder), it returns the Safe verdict exactly on an
HTTP 200 response with no matches, the ApiError verdict exactly on a
transport error or timeout, and the Flagged verdict in every other
completed-response case — status 200 with matches, and also any non-success
status. -/
theorem check_safety_verdict_mapping (key : Option String) (resp : HttpOutcome)
    (c : List (String × String)) (d : String)
    (hkey : key ≠ some "YOUR_GOOGLE_API_KEY") (hc : lookup c d = none) :
    (check_safety key resp c d).2.2 = true ∧
    ((check_safety key resp c d).1 = "‚úÖ Safe" ↔ resp = .ok (200, false)) ∧
    ((check_safety key resp c d).1 = "‚ùå API Error" ↔ resp = .error ()) ∧
    ((check_safety key resp c d).1 = "‚ö†Ô∏è Malicious" ↔
      ∃ st m, resp = .ok (st, m) ∧ ¬(st = 200 ∧ m = false)) := by
  have hattempt : check_safety key resp c d =
      ((match resp with
        | .ok (status, hasMatch) =>
            if status = 200 ∧ hasMatch = false then "‚úÖ Safe"
            else "‚ö†Ô∏è Malicious"
        | .error _ => "‚ùå API Error"),
       c ++ [(d, (match resp with
        | .ok (status, hasMatch) =>
            if status = 200 ∧ hasMatch = false then "‚úÖ Safe"
            else "‚ö†Ô∏è Malicious"
        | .error _ => "‚ùå API Error"))], true) := by
    unfold check_safety
    simp [hc, hkey]
  rw [hattempt]
  cases resp with
  | ok p =>
    obtain ⟨st, m⟩ := p
    dsimp only
    by_cases hsm : st = 200 ∧ m = false
    · rw [if_pos hsm]
      obtain ⟨h1, h2⟩ := hsm
      subst h1
      subst h2
      refine ⟨rfl, by simp, ?_, ?_⟩
      · constructor
        · intro h
          exact absurd h (by decide)
        · intro h
          exact Except.noConfusion h
      · constructor
        · intro h
          exact absurd h (by decide)
        · rintro ⟨st, m, hsm2, hne⟩
          injection hsm2 with hp
          injection hp with h1 h2
          exact absurd ⟨h1.symm, h2.symm⟩ hne
    · rw [if_neg hsm]
      refine ⟨rfl, ?_, ?_, ⟨fun _ => ⟨st, m, rfl, hsm⟩, fun _ => rfl⟩⟩
      · constructor
        · intro h
          exact absurd h (by decide)
        · intro h
          injection h with hp
          injection hp with h1 h2
          exact absurd ⟨h1, h2⟩ hsm
      · constructor
        · intro h
          exact absurd h (by decide)
        · intro h
          exact Except.noConfusion h
  | error u =>
    obtain ⟨⟩ := u
    dsimp only
    refine ⟨rfl, ?_, by simp, ?_⟩
    · constructor
      · intro h
        exact absurd h (by decide)
      · intro h
        exact Except.noConfusion h
    · constructor
      · intro h
        exact absurd h (by decide)
      · rintro ⟨st, m, hsm2, -⟩
        exact Except.noConfusion hsm2

/-- C3 witness: a 200 response with no matches is classified Safe by the
amended mapping, with the call attempted. -/
theorem check_safety_verdict_mapping_witness :
    (check_safety (some "k") (.ok (200, false)) [] "example.com").1 =
      "‚úÖ Safe" ∧
    (check_safety (some "k") (.ok (200, false)) [] "example.com").2.2 = true := by
  have h := check_safety_verdict_mapping (some "k") (.ok (200, false)) []
    "example.com" (by decide) rfl
  exact ⟨h.2.1.mpr rfl, h.1⟩

/-! ## Aggregator step lemmas -/

/-- Branch normal form of `log_visit`. -/
theorem log_visit_eq (key : Option String) (ev : Event) (s : MonitorState) :
    log_visit key ev s =
      (if ev.now - (currentData s ev.domain).last_seen < MIN_INTERVAL then
        { state :=
            { s with visited_sites := (getOrCreate s.visited_sites ev.domain).2 },
          accepted := false, calls := [], raised := false }
      else if (currentData s ev.domain).visits + 1 = 1 then
        (match get_ip ev.resolve s.ip_cache ev.domain with
        | .error _ =>
          { state :=
              { s with visited_sites := (
                  setSite (getOrCreate s.visited_sites ev.domain).2 ev.domain
                    { visits := (currentData s ev.domain).visits + 1,
                      ip := (currentData s ev.domain).ip,
                      org := (currentData s ev.domain).org,
                      safety := (currentData s ev.domain).safety,
                      first_seen := ev.now,
                      last_seen := ev.now }) },
            accepted := true, calls := [(ev.domain, Lookup.ip)],
            raised := true }
        | .ok ri =>
          { state :=
              { visited_sites :=
                  setSite (getOrCreate s.visited_sites ev.domain).2 ev.domain
                    { visits := (currentData s ev.domain).visits + 1,
                      ip := ri.1,
                      org := (get_whois_org ev.whoisOrg s.whois_cache ev.domain).1,
                      safety := (check_safety key ev.http s.safety_cache ev.domain).1,
                      first_seen := ev.now,
                      last_seen := ev.now },
                ip_cache := ri.2.1,
                whois_cache := (get_whois_org ev.whoisOrg s.whois_cache ev.domain).2.1,
                safety_cache := (check_safety key ev.http s.safety_cache ev.domain).2.1 },
            accepted := true,
            calls :=
              (if ri.2.2 then [(ev.domain, Lookup.ip)] else [])
              ++ (if (get_whois_org ev.whoisOrg s.whois_cache ev.domain).2.2 then
                [(ev.domain, Lookup.org)] else [])
              ++ (if (check_safety key ev.http s.safety_cache ev.domain).2.2 then
                [(ev.domain, Lookup.safety)] else []),
            raised := false })
      else
        { state :=
            { s with visited_sites := (
                setSite (getOrCreate s.visited_sites ev.domain).2 ev.domain
                  { visits := (currentData s ev.domain).visits + 1,
                    ip := (currentData s ev.domain).ip,
                    org := (currentData s ev.domain).org,
                    safety := (currentData s ev.domain).safety,
                    first_seen := (currentData s ev.domain).first_seen,
                    last_seen := ev.now }) },
          accepted := true, calls := [], raised := false }) := rfl

theorem log_visit_discard {key : Option String} {ev : Event} {s : MonitorState}
    (h : ev.now - (currentData s ev.domain).last_seen < MIN_INTERVAL) :
    log_visit key ev s =
      { state :=
          { s with visited_sites := (getOrCreate s.visited_sites ev.domain).2 },
        accepted := false, calls := [], raised := false } := by
  rw [log_visit_eq, if_pos h]

theorem log_visit_first_raise {key : Option String} {ev : Event}
    {s : MonitorState}
    (h : ¬ ev.now - (currentData s ev.domain).last_seen < MIN_INTERVAL)
    (h0 : (currentData s ev.domain).visits = 0)
    (hip : get_ip ev.resolve s.ip_cache ev.domain = .error ()) :
    log_visit key ev s =
      { state :=
          { s with visited_sites := (
              setSite (getOrCreate s.visited_sites ev.domain).2 ev.domain
                { visits := (currentData s ev.domain).visits + 1,
                  ip := (currentData s ev.domain).ip,
                  org := (currentData s ev.domain).org,
                  safety := (currentData s ev.domain).safety,
                  first_seen := ev.now,
                  last_seen := ev.now }) },
        accepted := true, calls := [(ev.domain, Lookup.ip)],
        raised := true } := by
  rw [log_visit_eq, if_neg h, if_pos (by rw [h0]), hip]

theorem log_visit_first_ok {key : Option String} {ev : Event}
    {s : MonitorState} {ri : String × List (String × String) × Bool}
    (h : ¬ ev.now - (currentData s ev.domain).last_seen < MIN_INTERVAL)
    (h0 : (currentData s ev.domain).visits = 0)
    (hip : get_ip ev.resolve s.ip_cache ev.domain = .ok ri) :
    log_visit key ev s =
      { state :=
          { visited_sites :=
              setSite (getOrCreate s.visited_sites ev.domain).2 ev.domain
                { visits := (currentData s ev.domain).visits + 1,
                  ip := ri.1,
                  org := (get_whois_org ev.whoisOrg s.whois_cache ev.domain).1,
                  safety := (check_safety key ev.http s.safety_cache ev.domain).1,
                  first_seen := ev.now,
                  last_seen := ev.now },
            ip_cache := ri.2.1,
            whois_cache := (get_whois_org ev.whoisOrg s.whois_cache ev.domain).2.1,
            safety_cache := (check_safety key ev.http s.safety_cache ev.domain).2.1 },
        accepted := true,
        calls :=
          (if ri.2.2 then [(ev.domain, Lookup.ip)] else [])
          ++ (if (get_whois_org ev.whoisOrg s.whois_cache ev.domain).2.2 then
            [(ev.domain, Lookup.org)] else [])
          ++ (if (check_safety key ev.http s.safety_cache ev.domain).2.2 then
            [(ev.domain, Lookup.safety)] else []),
        raised := false } := by
  rw [log_visit_eq, if_neg h, if_pos (by rw [h0]), hip]

theorem log_visit_repeat {key : Option String} {ev : Event} {s : MonitorState}
    (h : ¬ ev.now - (currentData s ev.domain).last_seen < MIN_INTERVAL)
    (h1 : (currentData s ev.domain).visits + 1 ≠ 1) :
    log_visit key ev s =
      { state :=
          { s with visited_sites := (
              setSite (getOrCreate s.visited_sites ev.domain).2 ev.domain
                { visits := (currentData s ev.domain).visits + 1,
                  ip := (currentData s ev.domain).ip,
                  org := (currentData s ev.domain).org,
                  safety := (currentData s ev.domain).safety,
                  first_seen := (currentData s ev.domain).first_seen,
                  last_seen := ev.now }) },
        accepted := true, calls := [], raised := false } := by
  rw [log_visit_eq, if_neg h, if_neg h1]

theorem currentData_of_lookup {s : MonitorState} {d : String} {rec : SiteData}
    (h : lookup s.visited_sites d = some rec) : currentData s d = rec := by
  unfold currentData getOrCreate
  rw [h]

theorem currentData_of_fresh {s : MonitorState} {d : String}
    (h : lookup s.visited_sites d = none) : currentData s d = defaultSiteData := by
  unfold currentData getOrCreate
  rw [h]

theorem getOrCreate_of_lookup {l : List (String × SiteData)} {d : String}
    {rec : SiteData} (h : lookup l d = some rec) : getOrCreate l d = (rec, l) := by
  unfold getOrCreate
  rw [h]

/-- The probed domain always has an entry after `log_visit`. -/
theorem log_visit_lookup_self_discard {key : Option String} {ev : Event}
    {s : MonitorState}
    (h : ev.now - (currentData s ev.domain).last_seen < MIN_INTERVAL) :
    lookup (log_visit key ev s).state.visited_sites ev.domain =
      some (currentData s ev.domain) := by
  rw [log_visit_discard h]
  exact getOrCreate_lookup _ _

theorem log_visit_lookup_self_accept {key : Option String} {ev : Event}
    {s : MonitorState}
    (h : ¬ ev.now - (currentData s ev.domain).last_seen < MIN_INTERVAL) :
    ((lookup (log_visit key ev s).state.visited_sites ev.domain).map
        SiteData.visits = some ((currentData s ev.domain).visits + 1)) ∧
    ((lookup (log_visit key ev s).state.visited_sites ev.domain).map
        SiteData.last_seen = some ev.now) := by
  by_cases h1 : (currentData s ev.domain).visits + 1 = 1
  · have h0 : (currentData s ev.domain).visits = 0 := by omega
    cases hip : get_ip ev.resolve s.ip_cache ev.domain with
    | error e =>
      obtain ⟨⟩ := e
      rw [log_visit_first_raise h h0 hip]
      dsimp only
      rw [lookup_setSite_self, getOrCreate_lookup]
      exact ⟨rfl, rfl⟩
    | ok ri =>
      rw [log_visit_first_ok h h0 hip]
      dsimp only
      rw [lookup_setSite_self, getOrCreate_lookup]
      exact ⟨rfl, rfl⟩
  · rw [log_visit_repeat h h1]
    dsimp only
    rw [lookup_setSite_self, getOrCreate_lookup]
    exact ⟨rfl, rfl⟩

theorem log_visit_lookup_self_first_ok {key : Option String} {ev : Event}
    {s : MonitorState} {ri : String × List (String × String) × Bool}
    (h : ¬ ev.now - (currentData s ev.domain).last_seen < MIN_INTERVAL)
    (h0 : (currentData s ev.domain).visits = 0)
    (hip : get_ip ev.resolve s.ip_cache ev.domain = .ok ri) :
    lookup (log_visit key ev s).state.visited_sites ev.domain =
      some { visits := 1,
             ip := ri.1,
             org := (get_whois_org ev.whoisOrg s.whois_cache ev.domain).1,
             safety := (check_safety key ev.http s.safety_cache ev.domain).1,
             first_seen := ev.now,
             last_seen := ev.now } := by
  rw [log_visit_first_ok h h0 hip]
  dsimp only
  rw [lookup_setSite_self, getOrCreate_lookup]
  dsimp only [Option.map]
  rw [h0]

theorem log_visit_lookup_self_first_raise {key : Option String} {ev : Event}
    {s : MonitorState}
    (h : ¬ ev.now - (currentData s ev.domain).last_seen < MIN_INTERVAL)
    (h0 : (currentData s ev.domain).visits = 0)
    (hip : get_ip ev.resolve s.ip_cache ev.domain = .error ()) :
    lookup (log_visit key ev s).state.visited_sites ev.domain =
      some { visits := 1,
             ip := (currentData s ev.domain).ip,
             org := (currentData s ev.domain).org,
             safety := (currentData s ev.domain).safety,
             first_seen := ev.now,
             last_seen := ev.now } := by
  rw [log_visit_first_raise h h0 hip]
  dsimp only
  rw [lookup_setSite_self, getOrCreate_lookup]
  dsimp only [Option.map]
  rw [h0]

theorem log_visit_lookup_other {key : Option String} {ev : Event}
    {s : MonitorState} {d : String} (hd : d ≠ ev.domain) :
    lookup (log_visit key ev s).state.visited_sites d =
      lookup s.visited_sites d := by
  by_cases h : ev.now - (currentData s ev.domain).last_seen < MIN_INTERVAL
  · rw [log_visit_discard h]
    exact getOrCreate_lookup_other _ hd
  · by_cases h1 : (currentData s ev.domain).visits + 1 = 1
    · have h0 : (currentData s ev.domain).visits = 0 := by omega
      cases hip : get_ip ev.resolve s.ip_cache ev.domain with
      | error e =>
        obtain ⟨⟩ := e
        rw [log_visit_first_raise h h0 hip]
        dsimp only
        rw [lookup_setSite_other hd]
        exact getOrCreate_lookup_other _ hd
      | ok ri =>
        rw [log_visit_first_ok h h0 hip]
        dsimp only
        rw [lookup_setSite_other hd]
        exact getOrCreate_lookup_other _ hd
    · rw [log_visit_repeat h h1]
      dsimp only
      rw [lookup_setSite_other hd]
      exact getOrCreate_lookup_other _ hd

theorem log_visit_accepted_iff {key : Option String} {ev : Event}
    {s : MonitorState} :
    (log_visit key ev s).accepted = true ↔
      ¬ ev.now - (currentData s ev.domain).last_seen < MIN_INTERVAL := by
  by_cases h : ev.now - (currentData s ev.domain).last_seen < MIN_INTERVAL
  · rw [log_visit_discard h]
    simp [h]
  · by_cases h1 : (currentData s ev.domain).visits + 1 = 1
    · have h0 : (currentData s ev.domain).visits = 0 := by omega
      cases hip : get_ip ev.resolve s.ip_cache ev.domain with
      | error e =>
        obtain ⟨⟩ := e
        rw [log_visit_first_raise h h0 hip]
        simp [h]
      | ok ri =>
        rw [log_visit_first_ok h h0 hip]
        simp [h]
    · rw [log_visit_repeat h h1]
      simp [h]

/-! ## Claim theorems: debounce -/

/-- C10: the debounce boundary is exclusive.  When `now - lastSeenAt` is
exactly `MIN_INTERVAL` the strict `<` comparison in `log_visit` is false, so
the ingest is accepted: the visit count increments and `last_seen` is set. -/
theorem log_visit_boundary_exclusive (key : Option String) (ev : Event)
    (s : MonitorState)
    (h : ev.now - (currentData s ev.domain).last_seen = MIN_INTERVAL) :
    (log_visit key ev s).accepted = true ∧
    ((lookup (log_visit key ev s).state.visited_sites ev.domain).map
        SiteData.visits = some ((currentData s ev.domain).visits + 1)) ∧
    ((lookup (log_visit key ev s).state.visited_sites ev.domain).map
        SiteData.last_seen = some ev.now) := by
  have hno : ¬ ev.now - (currentData s ev.domain).last_seen < MIN_INTERVAL := by
    rw [h]
    exact lt_irrefl _
  have ha := @log_visit_lookup_self_accept key ev s hno
  exact ⟨log_visit_accepted_iff.mpr hno, ha.1, ha.2⟩

/-- C10 witness: one accepted visit at t = 10, then a second exactly
`MIN_INTERVAL` seconds later at t = 20, is accepted and counted. -/
theorem log_visit_boundary_exclusive_witness :
    ((log_visit (some "k") ⟨"example.com", 20, .gaierror, .error (), .error ()⟩
        (run (some "k") initialState
          [⟨"example.com", 10, .gaierror, .error (), .error ()⟩])).accepted = true) ∧
    ((lookup (log_visit (some "k")
        ⟨"example.com", 20, .gaierror, .error (), .error ()⟩
        (run (some "k") initialState
          [⟨"example.com", 10, .gaierror, .error (), .error ()⟩])).state.visited_sites
        "example.com").map SiteData.visits = some 2) := by
  have h := log_visit_boundary_exclusive (some "k")
    ⟨"example.com", 20, .gaierror, .error (), .error ()⟩
    (run (some "k") initialState
      [⟨"example.com", 10, .gaierror, .error (), .error ()⟩]) (by decide)
  refine ⟨h.1, ?_⟩
  rw [h.2.1]
  decide

/-- C1 counterexample: the claim's concrete examples fail on the code.  A
fresh defaultdict record has `last_seen = 0`, so an ingest at t = 0 satisfies
`0 - 0 < MIN_INTERVAL` and is itself discarded: ingesting at t = 0 and t = 5
leaves `visits = 0` (the claim says 1), and ingesting at t = 0 and t = 11
leaves `visits = 1` (the claim says 2). -/
theorem log_visit_epoch_examples_fail :
    ((lookup ((run (some "k") initialState
        [⟨"example.com", 0, .gaierror, .error (), .error ()⟩,
         ⟨"example.com", 5, .gaierror, .error (), .error ()⟩]).visited_sites)
        "example.com").map SiteData.visits = some 0) ∧
    ((lookup ((run (some "k") initialState
        [⟨"example.com", 0, .gaierror, .error (), .error ()⟩,
         ⟨"example.com", 5, .gaierror, .error (), .error ()⟩]).visited_sites)
        "example.com").map SiteData.visits ≠ some 1) ∧
    ((lookup ((run (some "k") initialState
        [⟨"example.com", 0, .gaierror, .error (), .error ()⟩,
         ⟨"example.com", 11, .gaierror, .error (), .error ()⟩]).visited_sites)
        "example.com").map SiteData.visits = some 1) ∧
    ((lookup ((run (some "k") initialState
        [⟨"example.com", 0, .gaierror, .error (), .error ()⟩,
         ⟨"example.com", 11, .gaierror, .error (), .error ()⟩]).visited_sites)
        "example.com").map SiteData.visits ≠ some 2) := by
  refine ⟨by decide, by decide, by decide, by decide⟩

/-- C1 (amended): the general debounce rule holds — an ingest with
`now - lastSeenAt < MIN_INTERVAL` is a no-op on the record (count and
timestamps unchanged), and one with `now - lastSeenAt ≥ MIN_INTERVAL`
increments the count by exactly 1 and sets `lastSeenAt := now` — and the
concrete examples hold once the base time is at least `MIN_INTERVAL` past
the epoch (a fresh record's `last_seen` is initialized to 0): ingesting at
t = 10 and t = 15 yields `visits = 1`, and at t = 10 and t = 21 yields
`visits = 2`. -/
theorem log_visit_debounce_rule (key : Option String) (ev : Event)
    (s : MonitorState) :
    ((ev.now - (currentData s ev.domain).last_seen < MIN_INTERVAL →
       (log_visit key ev s).accepted = false ∧
       lookup (log_visit key ev s).state.visited_sites ev.domain =
         some (currentData s ev.domain)) ∧
     (MIN_INTERVAL ≤ ev.now - (currentData s ev.domain).last_seen →
       (log_visit key ev s).accepted = true ∧
       ((lookup (log_visit key ev s).state.visited_sites ev.domain).map
           SiteData.visits = some ((currentData s ev.domain).visits + 1)) ∧
       ((lookup (log_visit key ev s).state.visited_sites ev.domain).map
           SiteData.last_seen = some ev.now))) ∧
    ((lookup ((run (some "k") initialState
        [⟨"example.com", 10, .gaierror, .error (), .error ()⟩,
         ⟨"example.com", 15, .gaierror, .error (), .error ()⟩]).visited_sites)
        "example.com").map SiteData.visits = some 1) ∧
    ((lookup ((run (some "k") initialState
        [⟨"example.com", 10, .gaierror, .error (), .error ()⟩,
         ⟨"example.com", 21, .gaierror, .error (), .error ()⟩]).visited_sites)
        "example.com").map SiteData.visits = some 2) := by
  refine ⟨⟨?_, ?_⟩, by decide, by decide⟩
  · intro h
    refine ⟨?_, log_visit_lookup_self_discard h⟩
    rw [log_visit_discard h]
  · intro h
    have hno : ¬ ev.now - (currentData s ev.domain).last_seen < MIN_INTERVAL :=
      not_lt.mpr h
    have ha := @log_visit_lookup_self_accept key ev s hno
    exact ⟨log_visit_accepted_iff.mpr hno, ha.1, ha.2⟩

/-- C1 witness: after one accepted visit at t = 10, an ingest at t = 15 is a
no-op and an ingest at t = 21 increments the count to 2 and stamps the
timestamp. -/
theorem log_visit_debounce_rule_witness :
    ((log_visit (some "k") ⟨"example.com", 15, .gaierror, .error (), .error ()⟩
        (run (some "k") initialState
          [⟨"example.com", 10, .gaierror, .error (), .error ()⟩])).accepted = false) ∧
    ((lookup (log_visit (some "k")
        ⟨"example.com", 15, .gaierror, .error (), .error ()⟩
        (run (some "k") initialState
          [⟨"example.com", 10, .gaierror, .error (), .error ()⟩])).state.visited_sites
        "example.com").map SiteData.visits = some 1) ∧
    ((lookup (log_visit (some "k")
        ⟨"example.com", 21, .gaierror, .error (), .error ()⟩
        (run (some "k") initialState
          [⟨"example.com", 10, .gaierror, .error (), .error ()⟩])).state.visited_sites
        "example.com").map SiteData.visits = some 2) ∧
    ((lookup (log_visit (some "k")
        ⟨"example.com", 21, .gaierror, .error (), .error ()⟩
        (run (some "k") initialState
          [⟨"example.com", 10, .gaierror, .error (), .error ()⟩])).state.visited_sites
        "example.com").map SiteData.last_seen = some 21) := by
  have hin := (log_visit_debounce_rule (some "k")
    ⟨"example.com", 15, .gaierror, .error (), .error ()⟩
    (run (some "k") initialState
      [⟨"example.com", 10, .gaierror, .error (), .error ()⟩])).1.1 (by decide)
  have hout := (log_visit_debounce_rule (some "k")
    ⟨"example.com", 21, .gaierror, .error (), .error ()⟩
    (run (some "k") initialState
      [⟨"example.com", 10, .gaierror, .error (), .error ()⟩])).1.2 (by decide)
  refine ⟨hin.1, ?_, ?_, ?_⟩
  · rw [hin.2]
    decide
  · rw [hout.2.1]
    decide
  · rw [hout.2.2]

/-! ## Record-existence lemmas -/

theorem log_visit_lookup_self_isSome {key : Option String} {ev : Event}
    {s : MonitorState} :
    (lookup (log_visit key ev s).state.visited_sites ev.domain).isSome := by
  by_cases h : ev.now - (currentData s ev.domain).last_seen < MIN_INTERVAL
  · rw [log_visit_lookup_self_discard h]
    rfl
  · have hv := (@log_visit_lookup_self_accept key ev s h).1
    cases hl : lookup (log_visit key ev s).state.visited_sites ev.domain with
    | some v => rfl
    | none =>
      rw [hl] at hv
      exact Option.noConfusion hv

theorem log_visit_lookup_mono {key : Option String} {ev : Event}
    {s : MonitorState} {d : String} (h : (lookup s.visited_sites d).isSome) :
    (lookup (log_visit key ev s).state.visited_sites d).isSome := by
  by_cases hd : d = ev.domain
  · subst hd
    exact log_visit_lookup_self_isSome
  · rw [log_visit_lookup_other hd]
    exact h

theorem log_visit_fresh_accepted {key : Option String} {ev : Event}
    {s : MonitorState} (hfresh : lookup s.visited_sites ev.domain = none)
    (ht : MIN_INTERVAL ≤ ev.now) : (log_visit key ev s).accepted = true := by
  apply log_visit_accepted_iff.mpr
  rw [currentData_of_fresh hfresh]
  show ¬ ev.now - (0 : ℤ) < (10 : ℤ)
  have ht' : (10 : ℤ) ≤ ev.now := ht
  linarith

theorem run_lookup_isSome_iff (key : Option String) (evs : List Event)
    (s : MonitorState) (d : String)
    (htime : ∀ ev ∈ evs, MIN_INTERVAL ≤ ev.now) :
    (lookup (run key s evs).visited_sites d).isSome ↔
      ((lookup s.visited_sites d).isSome ∨
        (d, true) ∈ runAccepted key s evs) := by
  induction evs generalizing s with
  | nil => simp [run, runAccepted]
  | cons ev evs ih =>
    have htev := htime ev (List.mem_cons_self _ _)
    have htrest : ∀ e ∈ evs, MIN_INTERVAL ≤ e.now :=
      fun e he => htime e (List.mem_cons_of_mem _ he)
    rw [run, runAccepted, ih _ htrest]
    constructor
    · rintro (hs | hmem)
      · by_cases hd : d = ev.domain
        · subst hd
          by_cases hpre : (lookup s.visited_sites ev.domain).isSome
          · exact Or.inl hpre
          · have hn : lookup s.visited_sites ev.domain = none :=
              Option.not_isSome_iff_eq_none.mp hpre
            right
            rw [log_visit_fresh_accepted hn htev]
            exact List.mem_cons_self _ _
        · rw [log_visit_lookup_other hd] at hs
          exact Or.inl hs
      · exact Or.inr (List.mem_cons_of_mem _ hmem)
    · rintro (hs | hmem)
      · exact Or.inl (log_visit_lookup_mono hs)
      · rcases List.mem_cons.mp hmem with heq | htail
        · left
          have hd : d = ev.domain := congrArg Prod.fst heq
          subst hd
          exact log_visit_lookup_self_isSome
        · exact Or.inr htail

theorem log_visit_memInv {key : Option String} {ev : Event} {s : MonitorState}
    (ht : MIN_INTERVAL ≤ ev.now)
    (hs : ∀ p ∈ s.visited_sites, 1 ≤ p.2.visits) :
    ∀ p ∈ (log_visit key ev s).state.visited_sites, 1 ≤ p.2.visits := by
  have hmem2 : ∀ p ∈ (getOrCreate s.visited_sites ev.domain).2,
      p.1 ≠ ev.domain → 1 ≤ p.2.visits := by
    intro p hp hpd
    unfold getOrCreate at hp
    cases hl : lookup s.visited_sites ev.domain with
    | some rec =>
      rw [hl] at hp
      exact hs p hp
    | none =>
      rw [hl] at hp
      rcases List.mem_append.mp hp with hp1 | hp2
      · exact hs p hp1
      · exfalso
        rcases List.mem_singleton.mp hp2 with rfl
        exact hpd rfl
  intro p hp
  by_cases h : ev.now - (currentData s ev.domain).last_seen < MIN_INTERVAL
  · rw [log_visit_discard h] at hp
    cases hl : lookup s.visited_sites ev.domain with
    | some rec =>
      rw [show ((({ s with
            visited_sites := (getOrCreate s.visited_sites ev.domain).2 } :
              MonitorState)).visited_sites) =
          (getOrCreate s.visited_sites ev.domain).2 from rfl,
        getOrCreate_of_lookup hl] at hp
      exact hs p hp
    | none =>
      exfalso
      rw [currentData_of_fresh hl] at h
      have h' : ev.now - (0 : ℤ) < (10 : ℤ) := h
      have ht' : (10 : ℤ) ≤ ev.now := ht
      linarith
  · by_cases h1 : (currentData s ev.domain).visits + 1 = 1
    · have h0 : (currentData s ev.domain).visits = 0 := by omega
      cases hip : get_ip ev.resolve s.ip_cache ev.domain with
      | error e =>
        obtain ⟨⟩ := e
        rw [log_visit_first_raise h h0 hip] at hp
        dsimp only at hp
        rcases mem_setSite hp with rfl | ⟨hp2, hpd⟩
        · exact Nat.le_add_left 1 _
        · exact hmem2 p hp2 hpd
      | ok ri =>
        rw [log_visit_first_ok h h0 hip] at hp
        dsimp only at hp
        rcases mem_setSite hp with rfl | ⟨hp2, hpd⟩
        · exact Nat.le_add_left 1 _
        · exact hmem2 p hp2 hpd
    · rw [log_visit_repeat h h1] at hp
      dsimp only at hp
      rcases mem_setSite hp with rfl | ⟨hp2, hpd⟩
      · exact Nat.le_add_left 1 _
      · exact hmem2 p hp2 hpd

theorem run_memInv (key : Option String) (evs : List Event) {s : MonitorState}
    (htime : ∀ ev ∈ evs, MIN_INTERVAL ≤ ev.now)
    (hs : ∀ p ∈ s.visited_sites, 1 ≤ p.2.visits) :
    ∀ p ∈ (run key s evs).visited_sites, 1 ≤ p.2.visits := by
  induction evs generalizing s with
  | nil => exact hs
  | cons ev evs ih =>
    exact ih (fun e he => htime e (List.mem_cons_of_mem _ he))
      (log_visit_memInv (htime ev (List.mem_cons_self _ _)) hs)

/-! ## Claim theorems: record existence -/

/-- C8 counterexample: from the empty state, a single ingest of
"example.com" at t = 5 is discarded by the debounce rule (the fresh record
has `last_seen = 0` and `5 - 0 < MIN_INTERVAL`), yet the defaultdict probe
has already created the record: a `visits = 0` record exists with no
accepted ingest, and snapshot shows it. -/
theorem discarded_ingest_leaves_zero_visit_record :
    runAccepted (some "k") initialState
      [⟨"example.com", 5, .gaierror, .error (), .error ()⟩] =
        [("example.com", false)] ∧
    lookup ((run (some "k") initialState
      [⟨"example.com", 5, .gaierror, .error (), .error ()⟩]).visited_sites)
      "example.com" = some defaultSiteData ∧
    defaultSiteData.visits = 0 ∧
    snapshot (run (some "k") initialState
      [⟨"example.com", 5, .gaierror, .error (), .error ()⟩]) =
        [("example.com", defaultSiteData)] := by
  have hrun : run (some "k") initialState
      [⟨"example.com", 5, .gaierror, .error (), .error ()⟩] =
      { visited_sites := [("example.com", defaultSiteData)],
        ip_cache := [], whois_cache := [], safety_cache := [] } := by
    decide
  refine ⟨by decide, by decide, rfl, ?_⟩
  rw [hrun]
  simp [snapshot, List.mergeSort]

/-- C8 (amended): provided every ingest happens at least `MIN_INTERVAL`
seconds after the epoch (true of every real `time.time()` reading), a record
for a domain exists iff some ingest of that domain was accepted, and every
record visible to snapshot has `visits ≥ 1`.  Unconditionally the claim
fails: an ingest earlier than `MIN_INTERVAL` is itself discarded but still
creates a `visits = 0` record. -/
theorem record_exists_iff_accepted (key : Option String) (evs : List Event)
    (htime : ∀ ev ∈ evs, MIN_INTERVAL ≤ ev.now) :
    (∀ d, (lookup (run key initialState evs).visited_sites d).isSome ↔
       (d, true) ∈ runAccepted key initialState evs) ∧
    (∀ p ∈ snapshot (run key initialState evs), 1 ≤ p.2.visits) := by
  constructor
  · intro d
    rw [run_lookup_isSome_iff key evs initialState d htime]
    simp [initialState, lookup]
  · intro p hp
    have hmem : p ∈ (run key initialState evs).visited_sites := by
      unfold snapshot at hp
      exact List.mem_mergeSort.mp hp
    exact run_memInv key evs htime
      (by intro p hp; simp [initialState] at hp) p hmem

/-- C8 witness: one ingest of "example.com" at t = 10 creates exactly that
record — it exists, and no record exists for a domain never ingested. -/
theorem record_exists_iff_accepted_witness :
    (lookup ((run (some "k") initialState
      [⟨"example.com", 10, .gaierror, .error (), .error ()⟩]).visited_sites)
      "example.com").isSome ∧
    ¬ (lookup ((run (some "k") initialState
      [⟨"example.com", 10, .gaierror, .error (), .error ()⟩]).visited_sites)
      "other.com").isSome := by
  have h := record_exists_iff_accepted (some "k")
    [⟨"example.com", 10, .gaierror, .error (), .error ()⟩] (by decide)
  constructor
  · exact (h.1 "example.com").mpr (by decide)
  · intro hs
    have hmem := (h.1 "other.com").mp hs
    revert hmem
    decide

/-! ## Enrichment-at-most-once lemmas -/

/-- An enrichment call in a step happens only at the step domain's 0-to-1
transition; the record then holds exactly one visit. -/
theorem log_visit_calls_need_first {key : Option String} {ev : Event}
    {s : MonitorState} {d : String} {k : Lookup}
    (h : (d, k) ∈ (log_visit key ev s).calls) :
    d = ev.domain ∧ (currentData s ev.domain).visits = 0 ∧
      ∃ rec, lookup (log_visit key ev s).state.visited_sites ev.domain =
        some rec ∧ rec.visits = 1 := by
  by_cases hlt : ev.now - (currentData s ev.domain).last_seen < MIN_INTERVAL
  · rw [log_visit_discard hlt] at h
    exact absurd h (List.not_mem_nil _)
  · by_cases h1 : (currentData s ev.domain).visits + 1 = 1
    · have h0 : (currentData s ev.domain).visits = 0 := by omega
      cases hip : get_ip ev.resolve s.ip_cache ev.domain with
      | error e =>
        obtain ⟨⟩ := e
        refine ⟨?_, h0, ?_⟩
        · rw [log_visit_first_raise hlt h0 hip] at h
          exact congrArg Prod.fst (List.mem_singleton.mp h)
        · exact ⟨_, log_visit_lookup_self_first_raise hlt h0 hip, rfl⟩
      | ok ri =>
        refine ⟨?_, h0, ?_⟩
        · rw [log_visit_first_ok hlt h0 hip] at h
          dsimp only at h
          rcases List.mem_append.mp h with h2 | h2
          · rcases List.mem_append.mp h2 with h3 | h3
            · by_cases hatt : ri.2.2 = true
              · rw [if_pos hatt] at h3
                exact congrArg Prod.fst (List.mem_singleton.mp h3)
              · rw [if_neg hatt] at h3
                exact absurd h3 (List.not_mem_nil _)
            · by_cases hatt :
                  (get_whois_org ev.whoisOrg s.whois_cache ev.domain).2.2 = true
              · rw [if_pos hatt] at h3
                exact congrArg Prod.fst (List.mem_singleton.mp h3)
              · rw [if_neg hatt] at h3
                exact absurd h3 (List.not_mem_nil _)
          · by_cases hatt :
                (check_safety key ev.http s.safety_cache ev.domain).2.2 = true
            · rw [if_pos hatt] at h2
              exact congrArg Prod.fst (List.mem_singleton.mp h2)
            · rw [if_neg hatt] at h2
              exact absurd h2 (List.not_mem_nil _)
        · exact ⟨_, log_visit_lookup_self_first_ok hlt h0 hip, rfl⟩
    · rw [log_visit_repeat hlt h1] at h
      exact absurd h (List.not_mem_nil _)

theorem count_calls_branch (dm : String) (b1 b2 b3 : Bool) (d : String)
    (k : Lookup) :
    (((if b1 then [(dm, Lookup.ip)] else [])
      ++ (if b2 then [(dm, Lookup.org)] else [])
      ++ (if b3 then [(dm, Lookup.safety)] else [])).count (d, k)) ≤ 1 := by
  cases b1 <;> cases b2 <;> cases b3 <;> cases k <;>
    simp [List.count_cons, List.count_append, Prod.ext_iff] <;>
    split <;> simp

theorem log_visit_calls_count {key : Option String} {ev : Event}
    {s : MonitorState} {d : String} {k : Lookup} :
    ((log_visit key ev s).calls).count (d, k) ≤ 1 := by
  by_cases hlt : ev.now - (currentData s ev.domain).last_seen < MIN_INTERVAL
  · rw [log_visit_discard hlt]
    simp
  · by_cases h1 : (currentData s ev.domain).visits + 1 = 1
    · have h0 : (currentData s ev.domain).visits = 0 := by omega
      cases hip : get_ip ev.resolve s.ip_cache ev.domain with
      | error e =>
        obtain ⟨⟩ := e
        rw [log_visit_first_raise hlt h0 hip]
        dsimp only
        simp only [List.count_cons, List.count_nil]
        split <;> simp
      | ok ri =>
        rw [log_visit_first_ok hlt h0 hip]
        exact count_calls_branch ev.domain _ _ _ d k
    · rw [log_visit_repeat hlt h1]
      simp

theorem log_visit_no_calls_of_visited {key : Option String} {ev : Event}
    {s : MonitorState} {d : String} {rec : SiteData}
    (hl : lookup s.visited_sites d = some rec) (hv : 1 ≤ rec.visits)
    (k : Lookup) : (d, k) ∉ (log_visit key ev s).calls := by
  intro hmem
  obtain ⟨hd, h0, -⟩ := log_visit_calls_need_first hmem
  subst hd
  rw [currentData_of_lookup hl] at h0
  omega

theorem log_visit_fields_frozen {key : Option String} {ev : Event}
    {s : MonitorState} {d : String} {rec : SiteData}
    (hl : lookup s.visited_sites d = some rec) (hv : 1 ≤ rec.visits) :
    ∃ rec2, lookup (log_visit key ev s).state.visited_sites d = some rec2 ∧
      1 ≤ rec2.visits ∧ rec2.ip = rec.ip ∧ rec2.org = rec.org ∧
      rec2.safety = rec.safety := by
  by_cases hd : d = ev.domain
  · subst hd
    have hcur : currentData s ev.domain = rec := currentData_of_lookup hl
    by_cases hlt : ev.now - (currentData s ev.domain).last_seen < MIN_INTERVAL
    · refine ⟨rec, ?_, hv, rfl, rfl, rfl⟩
      rw [log_visit_lookup_self_discard hlt, hcur]
    · have h1 : (currentData s ev.domain).visits + 1 ≠ 1 := by
        rw [hcur]
        omega
      refine ⟨⟨rec.visits + 1, rec.ip, rec.org, rec.safety, rec.first_seen,
        ev.now⟩, ?_, by dsimp only; omega, rfl, rfl, rfl⟩
      rw [log_visit_repeat hlt h1]
      dsimp only
      rw [lookup_setSite_self, getOrCreate_lookup]
      dsimp only [Option.map]
      rw [hcur]
  · refine ⟨rec, ?_, hv, rfl, rfl, rfl⟩
    rw [log_visit_lookup_other hd]
    exact hl

theorem run_fields_frozen (key : Option String) (evs : List Event)
    {s : MonitorState} {d : String} {rec : SiteData}
    (hl : lookup s.visited_sites d = some rec) (hv : 1 ≤ rec.visits) :
    ∃ rec2, lookup (run key s evs).visited_sites d = some rec2 ∧
      1 ≤ rec2.visits ∧ rec2.ip = rec.ip ∧ rec2.org = rec.org ∧
      rec2.safety = rec.safety := by
  induction evs generalizing s rec with
  | nil => exact ⟨rec, hl, hv, rfl, rfl, rfl⟩
  | cons ev evs ih =>
    obtain ⟨rec1, hl1, hv1, hip, horg, hsaf⟩ := log_visit_fields_frozen hl hv
    obtain ⟨rec2, hl2, hv2, hip2, horg2, hsaf2⟩ := ih hl1 hv1
    exact ⟨rec2, hl2, hv2, hip2.trans hip, horg2.trans horg, hsaf2.trans hsaf⟩

theorem runCalls_zero_of_visited (key : Option String) (evs : List Event)
    {s : MonitorState} {d : String} {rec : SiteData}
    (hl : lookup s.visited_sites d = some rec) (hv : 1 ≤ rec.visits)
    (k : Lookup) : (runCalls key s evs).count (d, k) = 0 := by
  induction evs generalizing s rec with
  | nil => rfl
  | cons ev evs ih =>
    rw [runCalls, List.count_append]
    have h1 : ((log_visit key ev s).calls).count (d, k) = 0 :=
      List.count_eq_zero.mpr (log_visit_no_calls_of_visited hl hv k)
    obtain ⟨rec1, hl1, hv1, -, -, -⟩ := log_visit_fields_frozen hl hv
    rw [h1, ih hl1 hv1]

theorem runCalls_count_le_one (key : Option String) (evs : List Event)
    (s : MonitorState) (d : String) (k : Lookup) :
    (runCalls key s evs).count (d, k) ≤ 1 := by
  induction evs generalizing s with
  | nil => simp [runCalls]
  | cons ev evs ih =>
    rw [runCalls, List.count_append]
    by_cases hmem : (d, k) ∈ (log_visit key ev s).calls
    · obtain ⟨hd, h0, rec, hlrec, hvrec⟩ := log_visit_calls_need_first hmem
      have hl2 : lookup (log_visit key ev s).state.visited_sites d = some rec := by
        rw [hd]
        exact hlrec
      have hrest : (runCalls key (log_visit key ev s).state evs).count (d, k) = 0 :=
        runCalls_zero_of_visited key evs hl2 (by omega) k
      have hstep : ((log_visit key ev s).calls).count (d, k) ≤ 1 :=
        log_visit_calls_count
      omega
    · have hstep : ((log_visit key ev s).calls).count (d, k) = 0 :=
        List.count_eq_zero.mpr hmem
      have hrest := ih (s := (log_visit key ev s).state)
      omega

/-! ## Claim theorems: enrichment at most once -/

/-- C7 counterexample: when the first accepted ingest's address resolution
raises the uncaught `UnicodeError` (a label longer than 63 characters),
`log_visit` aborts after committing the count and timestamps: the ingest
that takes the count from 0 to 1 raises, writes none of the three
enrichment fields (they keep their defaults), makes no organization or
reputation call, and a later ingest still leaves the fields unwritten —
refuting "written exactly once, at the ingest whose accepted increment
takes visitCount from 0 to 1". -/
theorem enrichment_skipped_on_resolver_raise :
    ((log_visit (some "k")
      ⟨"aaaaaaaaaaaaaaaaaaaaaaaaaaaaaaaaaaaaaaaaaaaaaaaaaaaaaaaaaaaaaaaaaaaaaa.com", 10, .unicodeError, .ok (some "Example Org"), .ok (200, false)⟩
      initialState).raised = true) ∧
    ((log_visit (some "k")
      ⟨"aaaaaaaaaaaaaaaaaaaaaaaaaaaaaaaaaaaaaaaaaaaaaaaaaaaaaaaaaaaaaaaaaaaaaa.com", 10, .unicodeError, .ok (some "Example Org"), .ok (200, false)⟩
      initialState).calls = [("aaaaaaaaaaaaaaaaaaaaaaaaaaaaaaaaaaaaaaaaaaaaaaaaaaaaaaaaaaaaaaaaaaaaaa.com", Lookup.ip)]) ∧
    (lookup ((run (some "k") initialState
      [⟨"aaaaaaaaaaaaaaaaaaaaaaaaaaaaaaaaaaaaaaaaaaaaaaaaaaaaaaaaaaaaaaaaaaaaaa.com", 10, .unicodeError, .ok (some "Example Org"), .ok (200, false)⟩,
       ⟨"aaaaaaaaaaaaaaaaaaaaaaaaaaaaaaaaaaaaaaaaaaaaaaaaaaaaaaaaaaaaaaaaaaaaaa.com", 25, .addr "93.184.216.34", .ok (some "Example Org"),
         .ok (200, false)⟩]).visited_sites)
      "aaaaaaaaaaaaaaaaaaaaaaaaaaaaaaaaaaaaaaaaaaaaaaaaaaaaaaaaaaaaaaaaaaaaaa.com" = some ⟨2, "N/A", "N/A", "Not Checked", 10, 25⟩) := by
  refine ⟨by decide, by decide, by decide⟩

/-- C7 (amended): the enrichment fields are written at most once, at the
ingest taking the count from 0 to 1: when the address resolution returns
(normally or via the caught `gaierror`) they are set to the three gateway
results together with both timestamps; when it raises, the ingest aborts
after committing count and timestamps, the fields keep their previous
(default) values and the organization and reputation lookups are not
invoked.  In all cases no later ingest of the domain modifies the three
fields, and over any run from the initial state at most one remote call
happens per `(domain, lookup-kind)` pair. -/
theorem enrichment_at_most_once (key : Option String) :
    (∀ (ev : Event) (s : MonitorState)
        (ri : String × List (String × String) × Bool),
      (currentData s ev.domain).visits = 0 →
      MIN_INTERVAL ≤ ev.now - (currentData s ev.domain).last_seen →
      get_ip ev.resolve s.ip_cache ev.domain = .ok ri →
      lookup (log_visit key ev s).state.visited_sites ev.domain =
        some { visits := 1, ip := ri.1,
               org := (get_whois_org ev.whoisOrg s.whois_cache ev.domain).1,
               safety := (check_safety key ev.http s.safety_cache ev.domain).1,
               first_seen := ev.now, last_seen := ev.now }) ∧
    (∀ (ev : Event) (s : MonitorState),
      (currentData s ev.domain).visits = 0 →
      MIN_INTERVAL ≤ ev.now - (currentData s ev.domain).last_seen →
      get_ip ev.resolve s.ip_cache ev.domain = .error () →
      (log_visit key ev s).raised = true ∧
      (log_visit key ev s).calls = [(ev.domain, Lookup.ip)] ∧
      lookup (log_visit key ev s).state.visited_sites ev.domain =
        some { visits := 1, ip := (currentData s ev.domain).ip,
               org := (currentData s ev.domain).org,
               safety := (currentData s ev.domain).safety,
               first_seen := ev.now, last_seen := ev.now }) ∧
    (∀ (s : MonitorState) (d : String) (rec : SiteData) (evs : List Event),
      lookup s.visited_sites d = some rec → 1 ≤ rec.visits →
      ∃ rec2, lookup (run key s evs).visited_sites d = some rec2 ∧
        rec2.ip = rec.ip ∧ rec2.org = rec.org ∧ rec2.safety = rec.safety) ∧
    (∀ (evs : List Event) (d : String) (k : Lookup),
      callCount (runCalls key initialState evs) d k ≤ 1) := by
  refine ⟨?_, ?_, ?_, ?_⟩
  · intro ev s ri h0 hmin hip
    exact log_visit_lookup_self_first_ok (not_lt.mpr hmin) h0 hip
  · intro ev s h0 hmin hip
    have hno : ¬ ev.now - (currentData s ev.domain).last_seen < MIN_INTERVAL :=
      not_lt.mpr hmin
    refine ⟨?_, ?_, log_visit_lookup_self_first_raise hno h0 hip⟩
    · rw [log_visit_first_raise hno h0 hip]
    · rw [log_visit_first_raise hno h0 hip]
  · intro s d rec evs hl hv
    obtain ⟨rec2, h1, -, h3, h4, h5⟩ := run_fields_frozen key evs hl hv
    exact ⟨rec2, h1, h3, h4, h5⟩
  · intro evs d k
    exact runCalls_count_le_one key evs initialState d k

/-- C7 witness: a first visit at t = 10 with a successful resolution writes
the enrichment results; a first visit of an over-long domain raises; a
later visit at t = 25 with different collaborator outcomes leaves the
written fields untouched; and the whole two-event run makes at most one
address lookup. -/
theorem enrichment_at_most_once_witness :
    (lookup (log_visit (some "k")
        ⟨"example.com", 10, .addr "93.184.216.34", .ok (some "Example Org"),
          .ok (200, false)⟩ initialState).state.visited_sites
        "example.com" =
      some { visits := 1, ip := "93.184.216.34", org := "Example Org",
             safety := "‚úÖ Safe", first_seen := 10, last_seen := 10 }) ∧
    ((log_visit (some "k")
        ⟨"aaaaaaaaaaaaaaaaaaaaaaaaaaaaaaaaaaaaaaaaaaaaaaaaaaaaaaaaaaaaaaaaaaaaaa.com", 10, .unicodeError, .ok (some "Example Org"),
          .ok (200, false)⟩ initialState).raised = true) ∧
    (∃ rec2, lookup ((run (some "k")
        (run (some "k") initialState
          [⟨"example.com", 10, .addr "93.184.216.34", .ok (some "Example Org"),
            .ok (200, false)⟩])
        [⟨"example.com", 25, .addr "9.9.9.9", .error (), .error ()⟩]).visited_sites)
        "example.com" = some rec2 ∧
      rec2.ip = "93.184.216.34" ∧ rec2.org = "Example Org" ∧
      rec2.safety = "‚úÖ Safe") ∧
    (callCount (runCalls (some "k") initialState
      [⟨"example.com", 10, .addr "93.184.216.34", .ok (some "Example Org"),
         .ok (200, false)⟩,
       ⟨"example.com", 25, .addr "9.9.9.9", .error (), .error ()⟩])
      "example.com" Lookup.ip ≤ 1) := by
  have h := enrichment_at_most_once (some "k")
  refine ⟨?_, ?_, ?_, h.2.2.2 _ "example.com" Lookup.ip⟩
  · have h1 := h.1 ⟨"example.com", 10, .addr "93.184.216.34",
      .ok (some "Example Org"), .ok (200, false)⟩ initialState
      ("93.184.216.34", [("example.com", "93.184.216.34")], true)
      (by decide) (by decide) rfl
    exact h1
  · exact (h.2.1 ⟨"aaaaaaaaaaaaaaaaaaaaaaaaaaaaaaaaaaaaaaaaaaaaaaaaaaaaaaaaaaaaaaaaaaaaaa.com", 10, .unicodeError, .ok (some "Example Org"),
      .ok (200, false)⟩ initialState (by decide) (by decide) rfl).1
  · obtain ⟨rec2, hl2, hip, horg, hsaf⟩ := h.2.2.1
      (run (some "k") initialState
        [⟨"example.com", 10, .addr "93.184.216.34", .ok (some "Example Org"),
          .ok (200, false)⟩])
      "example.com"
      { visits := 1, ip := "93.184.216.34", org := "Example Org",
        safety := "‚úÖ Safe", first_seen := 10, last_seen := 10 }
      [⟨"example.com", 25, .addr "9.9.9.9", .error (), .error ()⟩]
      (by decide) (by decide)
    exact ⟨rec2, hl2, hip, horg, hsaf⟩

/-! ## Claim theorems: snapshot ordering and top-N -/

/-- C5: the snapshot is a permutation of the stored records sorted in
descending order of `last_seen` (most-recently-seen first); in particular
records with `last_seen` values [5, 20, 1] come out in the order
[20, 5, 1]. -/
theorem snapshot_sorted_desc (s : MonitorState) :
    (snapshot s).Perm s.visited_sites ∧
    (snapshot s).Pairwise (fun a b => b.2.last_seen ≤ a.2.last_seen) ∧
    snapshot ⟨[("a.com", ⟨1, "x", "y", "z", 0, 5⟩),
         ("b.com", ⟨1, "x", "y", "z", 0, 20⟩),
         ("c.com", ⟨1, "x", "y", "z", 0, 1⟩)], [], [], []⟩ =
      [("b.com", ⟨1, "x", "y", "z", 0, 20⟩),
       ("a.com", ⟨1, "x", "y", "z", 0, 5⟩),
       ("c.com", ⟨1, "x", "y", "z", 0, 1⟩)] := by
  refine ⟨List.mergeSort_perm _ _, ?_, ?_⟩
  · have hs := @List.sorted_mergeSort (String × SiteData)
      (fun a b => decide (b.2.last_seen ≤ a.2.last_seen))
      (fun a b c hab hbc => by
        simp only [decide_eq_true_eq] at hab hbc ⊢
        exact le_trans hbc hab)
      (fun a b => by
        rcases le_total a.2.last_seen b.2.last_seen with h | h <;> simp [h])
      s.visited_sites
    exact hs.imp fun h => of_decide_eq_true h
  · simp [snapshot, List.mergeSort]

/-- C6: `top_sites` returns the snapshot sequence sorted in descending order
of visit count, truncated to at most `n` elements; the untruncated sort is a
permutation of the input, ties keep their original snapshot order (any pair
in weakly-descending order of the input stays in that order), and over
visit counts [3, 7, 1, 9] with n = 2 the records with counts [9, 7] come
out. -/
theorem top_sites_spec (l : List (String × SiteData)) (n : Nat) :
    (top_sites l n).Pairwise (fun a b => b.2.visits ≤ a.2.visits) ∧
    (top_sites l n).length = min n l.length ∧
    (top_sites l n).Sublist (top_sites l l.length) ∧
    (top_sites l l.length).Perm l ∧
    (∀ a b, [a, b].Sublist l → b.2.visits ≤ a.2.visits →
      [a, b].Sublist (top_sites l l.length)) ∧
    top_sites
      [("a.com", ⟨3, "x", "y", "z", 0, 0⟩), ("b.com", ⟨7, "x", "y", "z", 0, 0⟩),
       ("c.com", ⟨1, "x", "y", "z", 0, 0⟩), ("d.com", ⟨9, "x", "y", "z", 0, 0⟩)]
      2 =
      [("d.com", ⟨9, "x", "y", "z", 0, 0⟩),
       ("b.com", ⟨7, "x", "y", "z", 0, 0⟩)] := by
  have htrans : ∀ a b c : String × SiteData,
      (fun a b : String × SiteData => decide (b.2.visits ≤ a.2.visits)) a b →
      (fun a b : String × SiteData => decide (b.2.visits ≤ a.2.visits)) b c →
      (fun a b : String × SiteData => decide (b.2.visits ≤ a.2.visits)) a c := by
    intro a b c hab hbc
    simp only [decide_eq_true_eq] at hab hbc ⊢
    exact le_trans hbc hab
  have htotal : ∀ a b : String × SiteData,
      ((fun a b : String × SiteData => decide (b.2.visits ≤ a.2.visits)) a b ||
       (fun a b : String × SiteData => decide (b.2.visits ≤ a.2.visits)) b a) := by
    intro a b
    rcases le_total a.2.visits b.2.visits with h | h <;> simp [h]
  have hsorted := (@List.sorted_mergeSort (String × SiteData)
      (fun a b => decide (b.2.visits ≤ a.2.visits)) htrans htotal l).imp
    fun h => of_decide_eq_true h
  have hfull : top_sites l l.length =
      l.mergeSort fun a b => decide (b.2.visits ≤ a.2.visits) := by
    unfold top_sites
    rw [show l.length =
      (l.mergeSort fun a b => decide (b.2.visits ≤ a.2.visits)).length from
        (List.length_mergeSort l).symm]
    exact List.take_length _
  refine ⟨?_, ?_, ?_, ?_, ?_, ?_⟩
  · exact List.Pairwise.sublist (List.take_sublist _ _) hsorted
  · unfold top_sites
    rw [List.length_take, List.length_mergeSort]
  · rw [hfull]
    exact List.take_sublist _ _
  · rw [hfull]
    exact List.mergeSort_perm _ _
  · intro a b hab hle
    rw [hfull]
    exact @List.pair_sublist_mergeSort (String × SiteData)
      (fun a b => decide (b.2.visits ≤ a.2.visits)) a b l htrans htotal
      (decide_eq_true hle) hab
  · simp [top_sites, List.mergeSort]

/-- C6 witness: in the [3, 7, 1, 9] snapshot the tied-order pair with counts
7 and 1 keeps its relative order through the untruncated sort. -/
theorem top_sites_spec_witness :
    ([("b.com", (⟨7, "x", "y", "z", 0, 0⟩ : SiteData)),
      ("c.com", ⟨1, "x", "y", "z", 0, 0⟩)]).Sublist
      (top_sites
        [("a.com", ⟨3, "x", "y", "z", 0, 0⟩),
         ("b.com", ⟨7, "x", "y", "z", 0, 0⟩),
         ("c.com", ⟨1, "x", "y", "z", 0, 0⟩),
         ("d.com", ⟨9, "x", "y", "z", 0, 0⟩)] 4) := by
  have h := (top_sites_spec
    [("a.com", ⟨3, "x", "y", "z", 0, 0⟩), ("b.com", ⟨7, "x", "y", "z", 0, 0⟩),
     ("c.com", ⟨1, "x", "y", "z", 0, 0⟩), ("d.com", ⟨9, "x", "y", "z", 0, 0⟩)]
    4).2.2.2.2.1
    ("b.com", ⟨7, "x", "y", "z", 0, 0⟩) ("c.com", ⟨1, "x", "y", "z", 0, 0⟩)
    (List.Sublist.cons _ (List.Sublist.cons₂ _ (List.Sublist.cons₂ _
      (List.Sublist.cons _ (List.nil_sublist _))))) (by decide)
  exact h

end WebMonitor
